import Mathlib

/-!
Verification of the asynchronous voice-synthesis cache of `sound_manager.py`
(class `SoundManager`).  The Python methods are embedded shallowly as pure
Lean functions over an explicit state record:

* `playVoice`       — `SoundManager.play_voice` (the coordinator `request`)
* `update`          — `SoundManager.update` (the per-frame `poll`)
* `workerPop`       — the queue pop of `SoundManager._generation_worker`
* `workerFinishOk`  — the success path of `SoundManager._generate_and_cache`
* `workerFinishFail`— the failure path of `SoundManager._generate_and_cache`
* `setVolumeVoice`  — `SoundManager.set_volume_voice`

Nondeterministic interaction with the environment (whether loading a file
succeeds: `pygame.mixer.Sound(path)` may raise) is passed in as a boolean
oracle over paths.  Playback side effects are recorded in a `plays` log.
Float volumes are modelled as rationals: the only operations the code
performs on them are `min`, `max` and assignment, which are exact.
-/

/-- One ASCII-lowered character, as Python's `str.lower` acts on the
letters appearing in this code base. -/
def pyLowerChar (c : Char) : Char := c.toLower

/-- Python `str.lower`, character by character. -/
def pyLower (s : String) : String := String.mk (s.data.map pyLowerChar)

/-- Python whitespace as recognised by `str.strip` (ASCII part). -/
def isPySpace (c : Char) : Bool :=
  c = ' ' || c = '\t' || c = '\n' || c = '\x0d' || c = '\x0b' || c = '\x0c'

/-- Python `str.strip`: drop leading and trailing whitespace. -/
def pyStrip (s : String) : String :=
  String.mk (((s.data.dropWhile isPySpace).reverse.dropWhile isPySpace).reverse)

/-- `word.lower().strip()` — the key normalisation performed at the top of
`SoundManager.play_voice`. -/
def normKey (w : String) : String := pyStrip (pyLower w)

/-- `os.path.join` for the two-component paths used here (POSIX). -/
def joinPath (d f : String) : String := d ++ "/" ++ f

/-- `self.voice_dir = os.path.join("assets", "voice")`. -/
def voiceDir : String := joinPath "assets" "voice"

/-- The disk path `play_voice` checks: `os.path.join(self.voice_dir, f"{word}.mp3")`,
computed in `SoundManager.play_voice` (lines 135-136). -/
def coordPath (w : String) : String := joinPath voiceDir (w ++ ".mp3")

/-- The disk path the worker writes: `os.path.join(self.voice_dir, f"{word}.mp3")`,
computed independently in `SoundManager._generate_and_cache` (lines 173-174). -/
def workerPath (w : String) : String := joinPath voiceDir (w ++ ".mp3")

/-- A loaded `pygame.mixer.Sound`: mutable playback volume plus the path it
was loaded from.  A freshly constructed Sound has volume 1. -/
structure Asset where
  volume : Rat
  src : String
deriving Repr, DecidableEq

/-- Association-list lookup, mirroring Python dict lookup `word in self.voice_cache`
/ `self.voice_cache[word]`. -/
def lookupA (l : List (String × Asset)) (k : String) : Option Asset :=
  match l with
  | [] => none
  | (k1, a) :: rest => if k1 = k then some a else lookupA rest k

/-- Association-list insert with overwrite, mirroring `self.voice_cache[word] = sound`. -/
def insertA (l : List (String × Asset)) (k : String) (a : Asset) : List (String × Asset) :=
  match l with
  | [] => [(k, a)]
  | (k1, a1) :: rest => if k1 = k then (k, a) :: rest else (k1, a1) :: insertA rest k a

/-- Set-like insert into a list (used for the on-disk file set). -/
def insertS (l : List String) (x : String) : List String :=
  if x ∈ l then l else l ++ [x]

/-- The mutable state of a `SoundManager` restricted to the voice-synthesis
core, together with the disk contents, the play log, and the worker
thread's local variable `word_to_process` (`workerBusy`). -/
structure SMState where
  voice_cache : List (String × Asset)
  generation_queue : List String
  ready_queue : List (String × String)
  generating_words : List String
  pending_play : Option String
  volume_voice : Rat
  disk : List String
  plays : List String
  workerBusy : Option String
deriving Repr, DecidableEq

/-- The state after `SoundManager.__init__` (caches and queues empty,
`volume_voice = 0.8`), given the pre-existing contents `d` of the durable
voice directory. -/
def initState (d : List String) : SMState :=
  { voice_cache := []
    generation_queue := []
    ready_queue := []
    generating_words := []
    pending_play := none
    volume_voice := (8 : Rat) / 10
    disk := d
    plays := []
    workerBusy := none }

/-- Step 3 of `play_voice` (lines 149-155): set `pending_play`, then under
the lock enqueue the word unless it is already generating. -/
def requestGen (s : SMState) (w : String) : SMState :=
  if w ∈ s.generating_words then { s with pending_play := some w }
  else
    { s with
      pending_play := some w
      generation_queue := s.generation_queue ++ [w]
      generating_words := s.generating_words ++ [w] }

/-- `SoundManager.play_voice` (lines 122-155).  `lo p` tells whether
constructing `pygame.mixer.Sound p` succeeds.  Branches: empty key → return;
memory cache hit → set volume and play; disk hit with successful load →
cache, set volume, play; otherwise (no file, or load raised) → async
generation request. -/
def playVoice (lo : String → Bool) (s : SMState) (w0 : String) : SMState :=
  let w := normKey w0
  if w = "" then s
  else
    match lookupA s.voice_cache w with
    | some a =>
      { s with
        voice_cache := insertA s.voice_cache w { a with volume := s.volume_voice }
        plays := s.plays ++ [w] }
    | none =>
      if coordPath w ∈ s.disk ∧ lo (coordPath w) = true then
        { s with
          voice_cache := insertA s.voice_cache w
            { volume := s.volume_voice, src := coordPath w }
          plays := s.plays ++ [w] }
      else requestGen s w

/-- Body of the drain loop of `SoundManager.update` for one popped
`(word, path)` record: try to load; on success insert into the memory
cache and, if the word is the pending auto-play target, play it and clear
the target; on failure (exception) leave the state as is. -/
def processOne (lo : String → Bool) (s : SMState) (w p : String) : SMState :=
  if lo p = true then
    if s.pending_play = some w then
      { s with
        voice_cache := insertA s.voice_cache w { volume := 1, src := p }
        plays := s.plays ++ [w]
        pending_play := none }
    else
      { s with voice_cache := insertA s.voice_cache w { volume := 1, src := p } }
  else s

/-- The `while self.ready_queue:` loop of `SoundManager.update`, with the
records to drain made explicit. -/
def drainReady (lo : String → Bool) : List (String × String) → SMState → SMState
  | [], s => s
  | (w, p) :: rest, s => drainReady lo rest (processOne lo s w p)

/-- `SoundManager.update` (lines 48-62): atomically drain the ready queue,
processing each record in FIFO order. -/
def update (lo : String → Bool) (s : SMState) : SMState :=
  drainReady lo s.ready_queue { s with ready_queue := [] }

/-- The pop step of `SoundManager._generation_worker` (lines 162-164):
under the lock, take the oldest queued word (if any) as the worker's
current word. -/
def workerPop (s : SMState) : SMState :=
  match s.generation_queue with
  | [] => s
  | w :: rest => { s with generation_queue := rest, workerBusy := some w }

/-- Success path of `SoundManager._generate_and_cache` (lines 176-183):
the synthesized file is written to `workerPath w`, then under the lock the
completion record is appended to the ready queue and the word removed from
`generating_words`; the worker becomes idle. -/
def workerFinishOk (s : SMState) (w : String) : SMState :=
  { s with
    disk := insertS s.disk (workerPath w)
    ready_queue := s.ready_queue ++ [(w, workerPath w)]
    generating_words := s.generating_words.filter (fun x => x != w)
    workerBusy := none }

/-- Failure path of `SoundManager._generate_and_cache` (lines 185-188):
log, remove the word from `generating_words`, push nothing; the worker
becomes idle. -/
def workerFinishFail (s : SMState) (w : String) : SMState :=
  { s with
    generating_words := s.generating_words.filter (fun x => x != w)
    workerBusy := none }

/-- `SoundManager.set_volume_voice` (lines 98-102): clamp with
`max(0.0, min(1.0, vol))`, store, and set the volume of every cached
voice asset. -/
def setVolumeVoice (s : SMState) (v : Rat) : SMState :=
  let c := max 0 (min 1 v)
  { s with
    volume_voice := c
    voice_cache := s.voice_cache.map (fun kv => (kv.1, { kv.2 with volume := c })) }

/-- One step of the system: a consumer call (`play_voice`, `update`,
`set_volume_voice`) or a worker transition (pop when idle, finish the
current word with success or failure). -/
inductive Step : SMState → SMState → Prop where
  | req (s : SMState) (lo : String → Bool) (w : String) : Step s (playVoice lo s w)
  | poll (s : SMState) (lo : String → Bool) : Step s (update lo s)
  | setVol (s : SMState) (v : Rat) : Step s (setVolumeVoice s v)
  | pop (s : SMState) (h : s.workerBusy = none) : Step s (workerPop s)
  | finishOk (s : SMState) (w : String) (h : s.workerBusy = some w) :
      Step s (workerFinishOk s w)
  | finishFail (s : SMState) (w : String) (h : s.workerBusy = some w) :
      Step s (workerFinishFail s w)

/-- States reachable from a fresh `SoundManager` over an arbitrary initial
disk by any interleaving of steps. -/
inductive Reachable : SMState → Prop where
  | init (d : List String) : Reachable (initState d)
  | step {s s1 : SMState} : Reachable s → Step s s1 → Reachable s1

/-- The queue/pending-set consistency invariant: every queued word is
marked generating, the queue has no duplicates, and the word the worker is
currently processing is marked generating but no longer queued. -/
def SMInv (s : SMState) : Prop :=
  (∀ w ∈ s.generation_queue, w ∈ s.generating_words) ∧
  s.generation_queue.Nodup ∧
  (∀ w, s.workerBusy = some w → w ∈ s.generating_words ∧ w ∉ s.generation_queue)

/-- `processOne` never touches the generation queue, the generating set,
the worker slot, or the disk. -/
theorem processOne_frame (lo : String → Bool) (s : SMState) (w p : String) :
    (processOne lo s w p).generation_queue = s.generation_queue ∧
    (processOne lo s w p).generating_words = s.generating_words ∧
    (processOne lo s w p).workerBusy = s.workerBusy ∧
    (processOne lo s w p).disk = s.disk := by
  unfold processOne
  split
  · split
    · exact ⟨rfl, rfl, rfl, rfl⟩
    · exact ⟨rfl, rfl, rfl, rfl⟩
  · exact ⟨rfl, rfl, rfl, rfl⟩

/-- `drainReady` never touches the generation queue, the generating set,
the worker slot, or the disk. -/
theorem drainReady_frame (lo : String → Bool) (q : List (String × String)) (s : SMState) :
    (drainReady lo q s).generation_queue = s.generation_queue ∧
    (drainReady lo q s).generating_words = s.generating_words ∧
    (drainReady lo q s).workerBusy = s.workerBusy ∧
    (drainReady lo q s).disk = s.disk := by
  induction q generalizing s with
  | nil => exact ⟨rfl, rfl, rfl, rfl⟩
  | cons hd tl ih =>
    obtain ⟨w, p⟩ := hd
    have h1 := ih (processOne lo s w p)
    have h2 := processOne_frame lo s w p
    simp only [drainReady]
    exact ⟨h1.1.trans h2.1, h1.2.1.trans h2.2.1,
           h1.2.2.1.trans h2.2.2.1, h1.2.2.2.trans h2.2.2.2⟩

/-- Case analysis of `play_voice` on the queue-related fields: either it
leaves queue, generating set and worker slot untouched, or (the async-miss
branch, with the key not yet generating) it appends the normalized key to
both queue and generating set. -/
theorem playVoice_queue_cases (lo : String → Bool) (s : SMState) (w0 : String) :
    ((playVoice lo s w0).generation_queue = s.generation_queue ∧
     (playVoice lo s w0).generating_words = s.generating_words ∧
     (playVoice lo s w0).workerBusy = s.workerBusy) ∨
    (normKey w0 ∉ s.generating_words ∧
     (playVoice lo s w0).generation_queue = s.generation_queue ++ [normKey w0] ∧
     (playVoice lo s w0).generating_words = s.generating_words ++ [normKey w0] ∧
     (playVoice lo s w0).workerBusy = s.workerBusy) := by
  simp only [playVoice, requestGen]
  split
  · left; exact ⟨rfl, rfl, rfl⟩
  · split
    · left; exact ⟨rfl, rfl, rfl⟩
    · split
      · left; exact ⟨rfl, rfl, rfl⟩
      · split
        · left; exact ⟨rfl, rfl, rfl⟩
        · right; exact ⟨by assumption, rfl, rfl, rfl⟩

/-- `play_voice` on a full miss (nonempty key, not in memory cache, no
loadable disk file, not already generating): sets the auto-play target and
appends the key to the queue and the generating set. -/
theorem playVoice_miss (lo : String → Bool) (s : SMState) (w : String)
    (h1 : normKey w ≠ "")
    (h2 : lookupA s.voice_cache (normKey w) = none)
    (h3 : ¬(coordPath (normKey w) ∈ s.disk ∧ lo (coordPath (normKey w)) = true))
    (h4 : normKey w ∉ s.generating_words) :
    playVoice lo s w =
      { s with
        pending_play := some (normKey w)
        generation_queue := s.generation_queue ++ [normKey w]
        generating_words := s.generating_words ++ [normKey w] } := by
  simp only [playVoice, requestGen, h1, h2, if_neg h3, if_neg h4, if_neg h1]
  simp

/-- `play_voice` on a full miss when the key is already generating: only
the auto-play target changes. -/
theorem playVoice_miss_pending (lo : String → Bool) (s : SMState) (w : String)
    (h1 : normKey w ≠ "")
    (h2 : lookupA s.voice_cache (normKey w) = none)
    (h3 : ¬(coordPath (normKey w) ∈ s.disk ∧ lo (coordPath (normKey w)) = true))
    (h4 : normKey w ∈ s.generating_words) :
    playVoice lo s w = { s with pending_play := some (normKey w) } := by
  simp only [playVoice, requestGen, h1, h2, if_neg h3, if_pos h4, if_neg h1]
  simp

/-- C9: poll() no-op on empty channel — when the ready queue is empty,
`update` leaves the whole state unchanged (in particular no cache
insertion, no play, no change to the pending target or volumes). -/
theorem update_empty_noop (lo : String → Bool) (s : SMState)
    (h : s.ready_queue = []) : update lo s = s := by
  unfold update
  rw [h]
  show ({ s with ready_queue := [] } : SMState) = s
  rw [← h]

/-- Witness for `update_empty_noop` at a concrete state. -/
theorem update_empty_noop_witness :
    update (fun _ => true) (initState []) = initState [] :=
  update_empty_noop (fun _ => true) (initState []) rfl

/-- C10: empty-word no-op — any input whose normalisation is empty makes
`play_voice` return the state unchanged: nothing cached, queued, marked
generating, played, or set as the auto-play target. -/
theorem playVoice_blank_noop (lo : String → Bool) (s : SMState) (w : String)
    (h : normKey w = "") : playVoice lo s w = s := by
  simp [playVoice, h]

/-- Witness for `playVoice_blank_noop`: a whitespace-only input. -/
theorem playVoice_blank_noop_witness :
    playVoice (fun _ => false) (initState []) "  " = initState [] :=
  playVoice_blank_noop (fun _ => false) (initState []) "  " (by decide)

/-- C6: key normalisation — `"Cat"` and `" cat "` normalise to the same
cache key, derive the same on-disk path, and `play_voice` behaves
identically on them against every state (hence the same memory-cache,
pending-set and disk lookups). -/
theorem normalization_collision :
    normKey "Cat" = normKey " cat " ∧
    coordPath (normKey "Cat") = coordPath (normKey " cat ") ∧
    ∀ (lo : String → Bool) (s : SMState), playVoice lo s "Cat" = playVoice lo s " cat " :=
  ⟨rfl, rfl, fun _ _ => rfl⟩

/-- C7: retroactive volume propagation — `set_volume_voice` stores the
clamped value `max 0 (min 1 v)` (hence a value in `[0, 1]`), keeps the set
of cached keys unchanged, and sets the volume of every cached asset to the
clamped value, skipping none. -/
theorem setVolumeVoice_spec (s : SMState) (v : Rat) :
    (setVolumeVoice s v).volume_voice = max 0 (min 1 v) ∧
    0 ≤ (setVolumeVoice s v).volume_voice ∧
    (setVolumeVoice s v).volume_voice ≤ 1 ∧
    (setVolumeVoice s v).voice_cache.map Prod.fst = s.voice_cache.map Prod.fst ∧
    ∀ kv ∈ (setVolumeVoice s v).voice_cache, kv.2.volume = max 0 (min 1 v) := by
  refine ⟨rfl, le_max_left 0 _, max_le (by norm_num) (min_le_left 1 v), ?_, ?_⟩
  · simp [setVolumeVoice]
  · intro kv hkv
    simp only [setVolumeVoice, List.mem_map] at hkv
    obtain ⟨kv0, _, rfl⟩ := hkv
    rfl

/-- Witness for `setVolumeVoice_spec`: one cached asset, volume set to 2,
clamped to 1 and applied to the cached entry. -/
theorem setVolumeVoice_spec_witness :
    (("cat", ({ volume := 1, src := "assets/voice/cat.mp3" } : Asset)) ∈
      (setVolumeVoice
        { voice_cache := [("cat", { volume := (8 : Rat) / 10, src := "assets/voice/cat.mp3" })]
          generation_queue := []
          ready_queue := []
          generating_words := []
          pending_play := none
          volume_voice := (8 : Rat) / 10
          disk := []
          plays := []
          workerBusy := none } 2).voice_cache) ∧
    (("cat", ({ volume := 1, src := "assets/voice/cat.mp3" } : Asset)) : String × Asset).2.volume
      = max 0 (min 1 (2 : Rat)) := by
  constructor
  · decide
  · exact (setVolumeVoice_spec
      { voice_cache := [("cat", { volume := (8 : Rat) / 10, src := "assets/voice/cat.mp3" })]
        generation_queue := []
        ready_queue := []
        generating_words := []
        pending_play := none
        volume_voice := (8 : Rat) / 10
        disk := []
        plays := []
        workerBusy := none } 2).2.2.2.2 _ (by decide)

/-- C5: worker success path — the worker's write path agrees with the
coordinator's disk-check path for every key; on success the worker appends
exactly one `(key, path)` completion record (in the same atomic step that
removes the key from the generating set), the persisted file is on disk,
the key is no longer marked generating, and the cache and queue are
untouched. -/
theorem worker_success_spec (s : SMState) (w : String) :
    workerPath w = coordPath w ∧
    (workerFinishOk s w).ready_queue = s.ready_queue ++ [(w, workerPath w)] ∧
    workerPath w ∈ (workerFinishOk s w).disk ∧
    (workerFinishOk s w).generating_words = s.generating_words.filter (fun x => x != w) ∧
    w ∉ (workerFinishOk s w).generating_words ∧
    (workerFinishOk s w).voice_cache = s.voice_cache ∧
    (workerFinishOk s w).generation_queue = s.generation_queue := by
  refine ⟨rfl, rfl, ?_, rfl, ?_, rfl, rfl⟩
  · show workerPath w ∈ insertS s.disk (workerPath w)
    unfold insertS
    split
    · assumption
    · simp
  · show w ∉ (s.generating_words.filter (fun x => x != w))
    simp [List.mem_filter]

/-- C2: de-duplication — two back-to-back `play_voice` calls for the same
word, starting from a state where its key is not cached, not on disk, not
generating and not queued, leave exactly one copy of the key in the
generation queue. -/
theorem request_dedup (lo : String → Bool) (s : SMState) (w : String)
    (h1 : normKey w ≠ "")
    (h2 : lookupA s.voice_cache (normKey w) = none)
    (h3 : ¬(coordPath (normKey w) ∈ s.disk ∧ lo (coordPath (normKey w)) = true))
    (h4 : normKey w ∉ s.generating_words)
    (h5 : normKey w ∉ s.generation_queue) :
    List.count (normKey w) (playVoice lo (playVoice lo s w) w).generation_queue = 1 := by
  rw [playVoice_miss lo s w h1 h2 h3 h4]
  rw [playVoice_miss_pending lo
    { s with
      pending_play := some (normKey w)
      generation_queue := s.generation_queue ++ [normKey w]
      generating_words := s.generating_words ++ [normKey w] } w h1 h2 h3 (by simp)]
  simp [List.count_append, List.count_eq_zero.mpr h5]

/-- Witness for `request_dedup`: the word `"cat"` requested twice against
a fresh manager with an always-failing loader. -/
theorem request_dedup_witness :
    List.count (normKey "cat")
      (playVoice (fun _ => false)
        (playVoice (fun _ => false) (initState []) "cat") "cat").generation_queue = 1 :=
  request_dedup (fun _ => false) (initState []) "cat"
    (by decide) (by decide) (by decide) (by decide) (by decide)

/-- C4: worker failure path — on failure the worker pushes nothing onto
the completion channel, removes the key from the generating set (so an
always-failing backend leaves the set empty after processing its only
member), and a subsequent `play_voice` for the same (still uncached,
still not persisted) word re-enqueues it. -/
theorem worker_failure_spec (lo : String → Bool) (s : SMState) (w : String)
    (h1 : normKey w = w) (h2 : w ≠ "")
    (h3 : lookupA s.voice_cache w = none)
    (h4 : ¬(coordPath w ∈ s.disk ∧ lo (coordPath w) = true)) :
    (workerFinishFail s w).ready_queue = s.ready_queue ∧
    (workerFinishFail s w).voice_cache = s.voice_cache ∧
    w ∉ (workerFinishFail s w).generating_words ∧
    (s.generating_words = [w] → (workerFinishFail s w).generating_words = []) ∧
    w ∈ (playVoice lo (workerFinishFail s w) w).generation_queue := by
  have h1' : normKey w ≠ "" := by rw [h1]; exact h2
  have h3' : lookupA (workerFinishFail s w).voice_cache (normKey w) = none := by
    rw [h1]; exact h3
  have h4' : ¬(coordPath (normKey w) ∈ (workerFinishFail s w).disk ∧
      lo (coordPath (normKey w)) = true) := by rw [h1]; exact h4
  have h5' : normKey w ∉ (workerFinishFail s w).generating_words := by
    rw [h1]
    show w ∉ s.generating_words.filter (fun x => x != w)
    simp [List.mem_filter]
  refine ⟨rfl, rfl, ?_, ?_, ?_⟩
  · show w ∉ s.generating_words.filter (fun x => x != w)
    simp [List.mem_filter]
  · intro hone
    show s.generating_words.filter (fun x => x != w) = []
    rw [hone]
    simp
  · rw [playVoice_miss lo (workerFinishFail s w) w h1' h3' h4' h5']
    simp [h1]

/-- Witness for `worker_failure_spec`: the worker fails on `"cat"` while
it is the only generating word; the follow-up request re-queues it. -/
theorem worker_failure_spec_witness :
    "cat" ∈ (playVoice (fun _ => false)
      (workerFinishFail
        { voice_cache := []
          generation_queue := []
          ready_queue := []
          generating_words := ["cat"]
          pending_play := some "cat"
          volume_voice := (8 : Rat) / 10
          disk := []
          plays := []
          workerBusy := some "cat" } "cat") "cat").generation_queue :=
  (worker_failure_spec (fun _ => false)
    { voice_cache := []
      generation_queue := []
      ready_queue := []
      generating_words := ["cat"]
      pending_play := some "cat"
      volume_voice := (8 : Rat) / 10
      disk := []
      plays := []
      workerBusy := some "cat" } "cat"
    (by decide) (by decide) (by decide) (by decide)).2.2.2.2

/-- Looking up the freshly inserted key returns the inserted asset. -/
theorem lookupA_insertA_self (l : List (String × Asset)) (k : String) (a : Asset) :
    lookupA (insertA l k a) k = some a := by
  induction l with
  | nil => simp [insertA, lookupA]
  | cons hd tl ih =>
    obtain ⟨k1, a1⟩ := hd
    by_cases h : k1 = k
    · simp [insertA, lookupA, h]
    · simp [insertA, lookupA, h, ih]

/-- Inserting under a different key does not change a lookup. -/
theorem lookupA_insertA_other (l : List (String × Asset)) (k k1 : String) (a : Asset)
    (h : k1 ≠ k) : lookupA (insertA l k1 a) k = lookupA l k := by
  induction l with
  | nil => simp [insertA, lookupA, h]
  | cons hd tl ih =>
    obtain ⟨k2, a2⟩ := hd
    by_cases h2 : k2 = k1
    · subst h2
      simp [insertA, lookupA, h]
    · simp [insertA, lookupA, h2, ih]

/-- A key present in the memory cache stays present across `processOne`. -/
theorem processOne_lookup_mono (lo : String → Bool) (s : SMState) (w p k : String)
    (h : (lookupA s.voice_cache k).isSome = true) :
    (lookupA (processOne lo s w p).voice_cache k).isSome = true := by
  unfold processOne
  by_cases hk : w = k
  · subst hk
    split
    · split <;> simp [lookupA_insertA_self]
    · exact h
  · split
    · split <;> simpa [lookupA_insertA_other _ _ _ _ hk] using h
    · exact h

/-- A key present in the memory cache stays present across the drain loop. -/
theorem drainReady_lookup_mono (lo : String → Bool) (q : List (String × String))
    (s : SMState) (k : String)
    (h : (lookupA s.voice_cache k).isSome = true) :
    (lookupA (drainReady lo q s).voice_cache k).isSome = true := by
  induction q generalizing s with
  | nil => exact h
  | cons hd tl ih =>
    obtain ⟨w1, p1⟩ := hd
    exact ih (processOne lo s w1 p1) (processOne_lookup_mono lo s w1 p1 k h)

/-- Draining a queue that contains a loadable record for `w` leaves `w`
present in the memory cache. -/
theorem drainReady_mem_cache (lo : String → Bool) (q : List (String × String))
    (s : SMState) (w p : String)
    (hmem : (w, p) ∈ q) (hp : lo p = true) :
    (lookupA (drainReady lo q s).voice_cache w).isSome = true := by
  induction q generalizing s with
  | nil => cases hmem
  | cons hd tl ih =>
    obtain ⟨w1, p1⟩ := hd
    simp only [drainReady]
    rcases List.mem_cons.mp hmem with heq | htl
    · rw [Prod.mk.injEq] at heq
      obtain ⟨rfl, rfl⟩ := heq
      apply drainReady_lookup_mono
      unfold processOne
      rw [hp]
      simp only [if_true]
      split <;> simp [lookupA_insertA_self]
    · exact ih (processOne lo s w1 p1) htl

/-- The inserted element is a member of `insertS`. -/
theorem mem_insertS_self (l : List String) (x : String) : x ∈ insertS l x := by
  unfold insertS
  split
  · assumption
  · simp

/-- C8: completion postcondition — after the worker's successful
completion for `w` is drained by `update` (with the persisted file
loadable), the memory cache contains `w` and the durable store contains
the persisted file at the derived path. -/
theorem completion_postcondition (lo : String → Bool) (s : SMState) (w : String)
    (hp : lo (workerPath w) = true) :
    (lookupA (update lo (workerFinishOk s w)).voice_cache w).isSome = true ∧
    workerPath w ∈ (update lo (workerFinishOk s w)).disk := by
  constructor
  · unfold update
    apply drainReady_mem_cache lo (workerFinishOk s w).ready_queue _ w (workerPath w) _ hp
    show (w, workerPath w) ∈ s.ready_queue ++ [(w, workerPath w)]
    exact List.mem_append_right _ (List.mem_singleton_self _)
  · unfold update
    rw [(drainReady_frame lo (workerFinishOk s w).ready_queue _).2.2.2]
    show workerPath w ∈ insertS s.disk (workerPath w)
    exact mem_insertS_self _ _

/-- Witness for `completion_postcondition`: key `"cat"` from a fresh
manager, with loading always succeeding. -/
theorem completion_postcondition_witness :
    (lookupA (update (fun _ => true) (workerFinishOk (initState []) "cat")).voice_cache
      "cat").isSome = true ∧
    workerPath "cat" ∈ (update (fun _ => true) (workerFinishOk (initState []) "cat")).disk :=
  completion_postcondition (fun _ => true) (initState []) "cat" rfl

/-- C1: latest-wins auto-play. -/
theorem latest_wins (d : List String) (lo : String → Bool) (a b : String)
    (s1 s2 s3 s4 s5 s6 s7 s8 : SMState)
    (ha : normKey a ≠ "") (hb : normKey b ≠ "") (hab : normKey a ≠ normKey b)
    (hda : coordPath (normKey a) ∉ d) (hdb : coordPath (normKey b) ∉ d)
    (loa : lo (workerPath (normKey a)) = true)
    (lob : lo (workerPath (normKey b)) = true)
    (e1 : s1 = playVoice lo (initState d) a)
    (e2 : s2 = playVoice lo s1 b)
    (e3 : s3 = workerPop s2)
    (e4 : s4 = workerFinishOk s3 (normKey a))
    (e5 : s5 = update lo s4)
    (e6 : s6 = workerPop s5)
    (e7 : s7 = workerFinishOk s6 (normKey b))
    (e8 : s8 = update lo s7) :
    s2.pending_play = some (normKey b) ∧
    s3.workerBusy = some (normKey a) ∧
    (lookupA s5.voice_cache (normKey a)).isSome = true ∧
    s5.plays = [] ∧
    s5.pending_play = some (normKey b) ∧
    s6.workerBusy = some (normKey b) ∧
    (lookupA s8.voice_cache (normKey b)).isSome = true ∧
    s8.plays = [normKey b] ∧
    s8.pending_play = none := by
  have hba : normKey b ≠ normKey a := Ne.symm hab
  have E1 : s1 =
      { voice_cache := []
        generation_queue := [normKey a]
        ready_queue := []
        generating_words := [normKey a]
        pending_play := some (normKey a)
        volume_voice := (8 : Rat) / 10
        disk := d
        plays := []
        workerBusy := none } := by
    rw [e1, playVoice_miss lo (initState d) a ha rfl (fun hc => hda hc.1) (by simp [initState])]
    rfl
  have E2 : s2 =
      { voice_cache := []
        generation_queue := [normKey a, normKey b]
        ready_queue := []
        generating_words := [normKey a, normKey b]
        pending_play := some (normKey b)
        volume_voice := (8 : Rat) / 10
        disk := d
        plays := []
        workerBusy := none } := by
    rw [e2, E1, playVoice_miss lo
      { voice_cache := []
        generation_queue := [normKey a]
        ready_queue := []
        generating_words := [normKey a]
        pending_play := some (normKey a)
        volume_voice := (8 : Rat) / 10
        disk := d
        plays := []
        workerBusy := none } b hb rfl (fun hc => hdb hc.1) (by simpa using hba)]
    rfl
  have E3 : s3 =
      { voice_cache := []
        generation_queue := [normKey b]
        ready_queue := []
        generating_words := [normKey a, normKey b]
        pending_play := some (normKey b)
        volume_voice := (8 : Rat) / 10
        disk := d
        plays := []
        workerBusy := some (normKey a) } := by
    rw [e3, E2]
    rfl
  have E4 : s4 =
      { voice_cache := []
        generation_queue := [normKey b]
        ready_queue := [(normKey a, workerPath (normKey a))]
        generating_words := [normKey b]
        pending_play := some (normKey b)
        volume_voice := (8 : Rat) / 10
        disk := insertS d (workerPath (normKey a))
        plays := []
        workerBusy := none } := by
    rw [e4, E3]
    simp [workerFinishOk, List.filter_cons, hba]
  have E5 : s5 =
      { voice_cache := [(normKey a, { volume := 1, src := workerPath (normKey a) })]
        generation_queue := [normKey b]
        ready_queue := []
        generating_words := [normKey b]
        pending_play := some (normKey b)
        volume_voice := (8 : Rat) / 10
        disk := insertS d (workerPath (normKey a))
        plays := []
        workerBusy := none } := by
    rw [e5, E4]
    unfold update
    simp only [drainReady]
    simp [processOne, loa, hba, insertA]
  have E6 : s6 =
      { voice_cache := [(normKey a, { volume := 1, src := workerPath (normKey a) })]
        generation_queue := []
        ready_queue := []
        generating_words := [normKey b]
        pending_play := some (normKey b)
        volume_voice := (8 : Rat) / 10
        disk := insertS d (workerPath (normKey a))
        plays := []
        workerBusy := some (normKey b) } := by
    rw [e6, E5]
    rfl
  have E7 : s7 =
      { voice_cache := [(normKey a, { volume := 1, src := workerPath (normKey a) })]
        generation_queue := []
        ready_queue := [(normKey b, workerPath (normKey b))]
        generating_words := []
        pending_play := some (normKey b)
        volume_voice := (8 : Rat) / 10
        disk := insertS (insertS d (workerPath (normKey a))) (workerPath (normKey b))
        plays := []
        workerBusy := none } := by
    rw [e7, E6]
    simp [workerFinishOk, List.filter_cons]
  have E8 : s8 =
      { voice_cache := [(normKey a, { volume := 1, src := workerPath (normKey a) }),
                        (normKey b, { volume := 1, src := workerPath (normKey b) })]
        generation_queue := []
        ready_queue := []
        generating_words := []
        pending_play := none
        volume_voice := (8 : Rat) / 10
        disk := insertS (insertS d (workerPath (normKey a))) (workerPath (normKey b))
        plays := [normKey b]
        workerBusy := none } := by
    rw [e8, E7]
    unfold update
    simp only [drainReady]
    simp [processOne, lob, insertA, hab]
  refine ⟨by rw [E2], by rw [E3], ?_, by rw [E5], by rw [E5], by rw [E6], ?_, by rw [E8], by rw [E8]⟩
  · rw [E5]
    simp [lookupA]
  · rw [E8]
    simp [lookupA, hab]

/-- Witness for `latest_wins`: words `"aa"` then `"bb"` against a fresh
manager; after both completions only `"bb"` has been played and the
target is cleared. -/
theorem latest_wins_witness :
    (update (fun _ => true)
      (workerFinishOk
        (workerPop
          (update (fun _ => true)
            (workerFinishOk
              (workerPop
                (playVoice (fun _ => true)
                  (playVoice (fun _ => true) (initState []) "aa") "bb"))
              (normKey "aa"))))
        (normKey "bb"))).plays = [normKey "bb"] ∧
    (update (fun _ => true)
      (workerFinishOk
        (workerPop
          (update (fun _ => true)
            (workerFinishOk
              (workerPop
                (playVoice (fun _ => true)
                  (playVoice (fun _ => true) (initState []) "aa") "bb"))
              (normKey "aa"))))
        (normKey "bb"))).pending_play = none :=
  (latest_wins [] (fun _ => true) "aa" "bb" _ _ _ _ _ _ _ _
    (by decide) (by decide) (by decide) (by decide) (by decide) rfl rfl
    rfl rfl rfl rfl rfl rfl rfl rfl).2.2.2.2.2.2.2

/-- `update` never touches the generation queue, the generating set or the
worker slot. -/
theorem update_frame (lo : String → Bool) (s : SMState) :
    (update lo s).generation_queue = s.generation_queue ∧
    (update lo s).generating_words = s.generating_words ∧
    (update lo s).workerBusy = s.workerBusy := by
  have h := drainReady_frame lo s.ready_queue { s with ready_queue := [] }
  exact ⟨h.1, h.2.1, h.2.2.1⟩

/-- Any single step preserves the consistency invariant. -/
theorem step_preserves_SMInv {s s1 : SMState} (hs : SMInv s) (st : Step s s1) :
    SMInv s1 := by
  obtain ⟨hsub, hnd, hbusy⟩ := hs
  cases st with
  | req lo w =>
    rcases playVoice_queue_cases lo s w with ⟨hq, hg, hb⟩ | ⟨hnot, hq, hg, hb⟩
    · exact ⟨by rw [hq, hg]; exact hsub, by rw [hq]; exact hnd,
             by rw [hb, hq, hg]; exact hbusy⟩
    · refine ⟨?_, ?_, ?_⟩
      · rw [hq, hg]
        intro u hu
        rcases List.mem_append.mp hu with h1 | h1
        · exact List.mem_append_left _ (hsub u h1)
        · exact List.mem_append_right _ h1
      · rw [hq]
        refine List.Nodup.append hnd (List.nodup_singleton _) ?_
        intro x hx hx1
        rw [List.mem_singleton] at hx1
        exact hnot (hx1 ▸ hsub x hx)
      · rw [hb, hq, hg]
        intro u hu
        obtain ⟨hg1, hq1⟩ := hbusy u hu
        refine ⟨List.mem_append_left _ hg1, ?_⟩
        intro hmem
        rcases List.mem_append.mp hmem with h1 | h1
        · exact hq1 h1
        · rw [List.mem_singleton] at h1
          exact hnot (h1 ▸ hg1)
  | poll lo =>
    obtain ⟨hq, hg, hb⟩ := update_frame lo s
    exact ⟨by rw [hq, hg]; exact hsub, by rw [hq]; exact hnd,
           by rw [hb, hq, hg]; exact hbusy⟩
  | setVol v => exact ⟨hsub, hnd, hbusy⟩
  | pop h =>
    rcases hq : s.generation_queue with _ | ⟨w0, rest⟩
    · have hp : workerPop s = s := by unfold workerPop; rw [hq]
      rw [hp]
      exact ⟨hsub, hnd, hbusy⟩
    · have hp : workerPop s =
          { s with generation_queue := rest, workerBusy := some w0 } := by
        unfold workerPop; rw [hq]
      rw [hp]
      rw [hq] at hsub hnd
      refine ⟨?_, ?_, ?_⟩
      · intro u hu
        exact hsub u (List.mem_cons_of_mem _ hu)
      · exact hnd.of_cons
      · intro u hu
        have : w0 = u := by
          have := hu
          simpa using this
        subst this
        exact ⟨hsub w0 (List.mem_cons_self _ _), (List.nodup_cons.mp hnd).1⟩
  | finishOk w0 h =>
    refine ⟨?_, hnd, ?_⟩
    · intro u hu
      show u ∈ s.generating_words.filter (fun x => x != w0)
      rw [List.mem_filter]
      refine ⟨hsub u hu, ?_⟩
      rw [bne_iff_ne]
      intro heq
      exact (hbusy w0 h).2 (heq ▸ hu)
    · intro u hu
      simp [workerFinishOk] at hu
  | finishFail w0 h =>
    refine ⟨?_, hnd, ?_⟩
    · intro u hu
      show u ∈ s.generating_words.filter (fun x => x != w0)
      rw [List.mem_filter]
      refine ⟨hsub u hu, ?_⟩
      rw [bne_iff_ne]
      intro heq
      exact (hbusy w0 h).2 (heq ▸ hu)
    · intro u hu
      simp [workerFinishFail] at hu

/-- Every reachable state satisfies the consistency invariant. -/
theorem reachable_SMInv {s : SMState} (h : Reachable s) : SMInv s := by
  induction h with
  | init d =>
    exact ⟨fun u hu => by simp [initState] at hu,
           by simp [initState],
           fun u hu => by simp [initState] at hu⟩
  | step hr hst ih => exact step_preserves_SMInv ih hst

/-- C3: pending-set/queue consistency — in every reachable state each
queued key is in the generating set; across any single step from a
reachable state, a key newly in the generating set is exactly one newly
accepted into the queue, and a key can leave the generating set only by a
worker finish (success or failure) for that key. -/
theorem queue_pendingSet_consistency :
    (∀ s : SMState, Reachable s → ∀ w ∈ s.generation_queue, w ∈ s.generating_words) ∧
    (∀ s s1 : SMState, Reachable s → Step s s1 → ∀ w,
        w ∈ s1.generating_words → w ∉ s.generating_words →
        w ∈ s1.generation_queue ∧ w ∉ s.generation_queue) ∧
    (∀ s s1 : SMState, Step s s1 → ∀ w,
        w ∈ s.generating_words → w ∉ s1.generating_words →
        s1 = workerFinishOk s w ∨ s1 = workerFinishFail s w) := by
  refine ⟨?_, ?_, ?_⟩
  · intro s hr
    exact (reachable_SMInv hr).1
  · intro s s1 hr hst w hw1 hw0
    obtain ⟨hsub, hnd, hbusy⟩ := reachable_SMInv hr
    cases hst with
    | req lo w0 =>
      rcases playVoice_queue_cases lo s w0 with ⟨hq, hg, _⟩ | ⟨hnot, hq, hg, _⟩
      · rw [hg] at hw1
        exact absurd hw1 hw0
      · rw [hg] at hw1
        rcases List.mem_append.mp hw1 with h1 | h1
        · exact absurd h1 hw0
        · rw [List.mem_singleton] at h1
          subst h1
          refine ⟨by rw [hq]; exact List.mem_append_right _ (List.mem_singleton_self _), ?_⟩
          intro hmem
          exact hw0 (hsub _ hmem)
    | poll lo =>
      rw [(update_frame lo s).2.1] at hw1
      exact absurd hw1 hw0
    | setVol v => exact absurd hw1 hw0
    | pop h =>
      rcases hq2 : s.generation_queue with _ | ⟨u0, rest⟩
      · have hp : workerPop s = s := by unfold workerPop; rw [hq2]
        rw [hp] at hw1
        exact absurd hw1 hw0
      · have hp : workerPop s =
            { s with generation_queue := rest, workerBusy := some u0 } := by
          unfold workerPop; rw [hq2]
        rw [hp] at hw1
        exact absurd hw1 hw0
    | finishOk w0 h =>
      have hmem : w ∈ s.generating_words := by
        have h2 := hw1
        simp only [workerFinishOk, List.mem_filter] at h2
        exact h2.1
      exact absurd hmem hw0
    | finishFail w0 h =>
      have hmem : w ∈ s.generating_words := by
        have h2 := hw1
        simp only [workerFinishFail, List.mem_filter] at h2
        exact h2.1
      exact absurd hmem hw0
  · intro s s1 hst w hw1 hw0
    cases hst with
    | req lo w0 =>
      rcases playVoice_queue_cases lo s w0 with ⟨hq, hg, _⟩ | ⟨hnot, hq, hg, _⟩
      · rw [hg] at hw0
        exact absurd hw1 hw0
      · rw [hg] at hw0
        exact absurd (List.mem_append_left _ hw1) hw0
    | poll lo =>
      rw [(update_frame lo s).2.1] at hw0
      exact absurd hw1 hw0
    | setVol v => exact absurd hw1 hw0
    | pop h =>
      rcases hq2 : s.generation_queue with _ | ⟨u0, rest⟩
      · have hp : workerPop s = s := by unfold workerPop; rw [hq2]
        rw [hp] at hw0
        exact absurd hw1 hw0
      · have hp : workerPop s =
            { s with generation_queue := rest, workerBusy := some u0 } := by
          unfold workerPop; rw [hq2]
        rw [hp] at hw0
        exact absurd hw1 hw0
    | finishOk w0 h =>
      left
      have hww : w = w0 := by
        by_contra hne
        apply hw0
        show w ∈ s.generating_words.filter (fun x => x != w0)
        rw [List.mem_filter, bne_iff_ne]
        exact ⟨hw1, hne⟩
      rw [hww]
    | finishFail w0 h =>
      right
      have hww : w = w0 := by
        by_contra hne
        apply hw0
        show w ∈ s.generating_words.filter (fun x => x != w0)
        rw [List.mem_filter, bne_iff_ne]
        exact ⟨hw1, hne⟩
      rw [hww]

/-- Witness for `queue_pendingSet_consistency`: in the reachable state
after one miss request for `"cat"`, the queued key is marked generating. -/
theorem queue_pendingSet_consistency_witness :
    "cat" ∈ (playVoice (fun _ => false) (initState []) "cat").generating_words :=
  queue_pendingSet_consistency.1 _
    (Reachable.step (Reachable.init []) (Step.req (initState []) (fun _ => false) "cat"))
    "cat" (by decide)
